import Mathlib

/-!
# Verification of `zbc_read_zone` (libzbc tools)

A shallow embedding of `tools/read_zone/zbc_read_zone.c`: the zone extent
computation (`sector_max`), the bounded cancellable read loop (`readLoop`),
the per-iteration I/O shape selection (`dispatch_read`), the throughput
report (`zbc_report`), the output-file cleanup decision (`unlink_on_exit`)
and the `-nio` option parsing (`zbc_parse_nio`).

Machine integers of the C program (`unsigned long long`, `long long`,
`size_t`, `ssize_t`) are modelled as `Nat` and `Int`; where the C program's
unsigned wrap-around is observable (the `wp - start` subtraction, the
`* 1000000` rate products, the `int` → `unsigned long long` conversion of
`atoi`'s result) the reduction modulo `2 ^ 64` is written explicitly.
-/

/-- The fields of a `struct zbc_zone` descriptor that `main` consumes, with
the two libzbc header predicates it applies (`zbc_zone_sequential_req`,
which tests the zone type, and `zbc_zone_full`, which tests the zone
condition) recorded as the booleans they evaluate to. Sector fields are
`unsigned long long` in C, modelled as `Nat` (below `2 ^ 64`). -/
structure ZbcZone where
  sequential_req : Bool
  full : Bool
  start : Nat
  wp : Nat
  length : Nat

/-- Lines 301-305 of `zbc_read_zone.c`:

    if (zbc_zone_sequential_req(iozone) && !zbc_zone_full(iozone))
        sector_max = zbc_zone_wp(iozone) - zbc_zone_start(iozone);
    else
        sector_max = zbc_zone_length(iozone);

The subtraction `wp - start` is performed on `unsigned long long`, hence
the explicit wrap modulo `2 ^ 64`. -/
def zbc_sector_max (z : ZbcZone) : Nat :=
  if z.sequential_req && !z.full then (z.wp + 2 ^ 64 - z.start) % 2 ^ 64
  else z.length

/-- The configuration the loop consumes: `iosize` (bytes, from argv),
`ionum` (`-nio` cap, 0 = unlimited), `fvio` (`-vio` flag), `hasFile`
(`-f` given), the device logical block size in bytes
(`info.zbd_lblock_size`), the zone start sector and the computed
`sector_max`. All fixed before the loop starts. -/
structure Config where
  iosize : Nat
  ionum : Nat
  fvio : Bool
  hasFile : Bool
  lblock_size : Nat
  zone_start : Nat
  sector_max : Nat

/-- The loop-mutable variables of `main`: `sector_ofst`, `bcount`,
`iocount` and `ret` (the value that reaches the `out:` label and becomes
the process exit status). -/
structure LoopState where
  sector_ofst : Nat
  bcount : Nat
  iocount : Nat
  ret : Int
deriving DecidableEq, Repr

/-- Line 312: `sector_count = iosize >> 9;` — the per-iteration requested
sector count, a hard 9-bit shift of the byte size. -/
def requested_sectors (cfg : Config) : Nat :=
  cfg.iosize >>> 9

/-- Lines 312-314: the requested count clamped to the remaining extent:

    sector_count = iosize >> 9;
    if (sector_ofst + sector_count > sector_max)
        sector_count = sector_max - sector_ofst;
-/
def want_sectors (cfg : Config) (sector_ofst : Nat) : Nat :=
  let sc := requested_sectors cfg
  if cfg.sector_max < sector_ofst + sc then cfg.sector_max - sector_ofst else sc

/-- Line 352: `bcount += sector_count << 9;` — bytes accounted per
transferred sector, a hard 9-bit shift. -/
def bytes_of_sectors (t : Nat) : Nat :=
  t <<< 9

/-- Lines 351-354, the counter updates after a successful transfer of `t`
sectors:

    sector_ofst += sector_count;
    bcount += sector_count << 9;
    iocount++;
    ret = 0;
-/
def apply_transfer (s : LoopState) (t : Nat) : LoopState :=
  { sector_ofst := s.sector_ofst + t
    bcount := s.bcount + bytes_of_sectors t
    iocount := s.iocount + 1
    ret := 0 }

/-- Lines 55-58, the signal handler: `zbc_read_zone_abort = 1;` — it
writes 1 into the abort flag unconditionally, whatever the flag held.
No other statement in the program writes to the flag, so within a session
the flag can only go from 0 to 1, never back. -/
def zbc_read_zone_sigcatcher (_flag : Bool) : Bool :=
  true

/-- Lines 309-359, the read loop. The environment is abstracted by three
oracles, all indexed by the number of I/Os completed so far (each loop-top
poll and each primitive call of a run happens at a distinct `iocount`):
`abortAt k` is the value of `zbc_read_zone_abort` read at the top of the
iteration following `k` completed I/Os; `readRes k req` is the `ssize_t`
result of the `zbc_pread`/`zbc_preadv` call of that iteration (`req` the
sector count requested); `writeRes k` is the result of the `write` to the
output file of that iteration.

    while (!zbc_read_zone_abort && sector_ofst < sector_max) {
        sector_count = iosize >> 9;
        if (sector_ofst + sector_count > sector_max)
            sector_count = sector_max - sector_ofst;
        ret = zbc_pread(...);           /* or zbc_preadv(...) */
        if (ret <= 0) { ... ret = 1; break; }
        sector_count = ret;
        if (file) {
            ret = write(fd, iobuf, sector_count << 9);
            if (ret < 0) { ... ret = 1; break; }
        }
        sector_ofst += sector_count;
        bcount += sector_count << 9;
        iocount++;
        ret = 0;
        if (ionum > 0 && iocount >= ionum)
            break;
    }
-/
def readLoop (cfg : Config) (abortAt : Nat → Bool) (readRes : Nat → Nat → Int)
    (writeRes : Nat → Int) (s : LoopState) : LoopState :=
  if _h : abortAt s.iocount = false ∧ s.sector_ofst < cfg.sector_max then
    if _hret : readRes s.iocount (want_sectors cfg s.sector_ofst) ≤ 0 then
      { s with ret := 1 }
    else if cfg.hasFile ∧ writeRes s.iocount < 0 then { s with ret := 1 }
    else if 0 < cfg.ionum ∧ cfg.ionum ≤
        (apply_transfer s (readRes s.iocount
          (want_sectors cfg s.sector_ofst)).toNat).iocount then
      apply_transfer s (readRes s.iocount (want_sectors cfg s.sector_ofst)).toNat
    else
      readLoop cfg abortAt readRes writeRes
        (apply_transfer s (readRes s.iocount
          (want_sectors cfg s.sector_ofst)).toNat)
  else s
termination_by cfg.sector_max - s.sector_ofst
decreasing_by
  simp only [apply_transfer]
  omega

/-- The shape of the I/O issued by one loop iteration. `contiguous n lba`
is `zbc_pread(dev, iobuf, n, lba)`. `vectored len0 o1 len1 lba` is
`zbc_preadv(dev, iov, 2, lba)` with `iov[0] = (iobuf, len0)` and
`iov[1] = (iobuf + o1, len1)`: segment lengths are in sectors, `o1` is the
byte offset of the second segment's base inside the transfer buffer (the
first segment's base offset is 0). -/
inductive ReadShape where
  | contiguous (sectors : Nat) (lba : Nat)
  | vectored (len0 : Nat) (o1 : Nat) (len1 : Nat) (lba : Nat)
deriving DecidableEq, Repr

/-- Lines 316-330 of `zbc_read_zone.c`, the per-iteration I/O shape:

    if (fvio &&
        sector_count >= 2 * (info.zbd_lblock_size >> 9)) {
        struct iovec iov[2];
        iov[0].iov_base = iobuf;
        iov[0].iov_len = sector_count / 2;
        iov[1].iov_base = (uint8_t *) iobuf + (iov[0].iov_len << 9);
        iov[1].iov_len = sector_count - sector_count / 2;
        ret = zbc_preadv(dev, iov, 2,
                zbc_zone_start(iozone) + sector_ofst);
    } else
        ret = zbc_pread(dev, iobuf, sector_count,
                zbc_zone_start(iozone) + sector_ofst);
-/
def dispatch_read (cfg : Config) (sector_ofst : Nat) : ReadShape :=
  if cfg.fvio &&
      decide (2 * (cfg.lblock_size >>> 9) ≤ want_sectors cfg sector_ofst) then
    ReadShape.vectored (want_sectors cfg sector_ofst / 2)
      ((want_sectors cfg sector_ofst / 2) <<< 9)
      (want_sectors cfg sector_ofst - want_sectors cfg sector_ofst / 2)
      (cfg.zone_start + sector_ofst)
  else
    ReadShape.contiguous (want_sectors cfg sector_ofst)
      (cfg.zone_start + sector_ofst)

/-- The loop body never runs when the remaining extent is empty: the
condition `sector_ofst < sector_max` fails at once. -/
theorem readLoop_exit (cfg : Config) (a : Nat → Bool) (r : Nat → Nat → Int)
    (w : Nat → Int) (s : LoopState) (h : cfg.sector_max ≤ s.sector_ofst) :
    readLoop cfg a r w s = s := by
  rw [readLoop.eq_def, dif_neg (fun hc => absurd hc.2 (Nat.not_lt.mpr h))]

/-- C1: for every zone descriptor whose write pointer lies within the zone
(and whose sector fields fit `unsigned long long`), `sector_max` equals
`wp - start` when the zone is sequential-write-required and not full, and
equals the zone length otherwise; it never exceeds the zone length; and a
sequential, not-full zone with `wp = start` yields `sector_max = 0`, so
the read loop performs zero iterations whatever the oracles and the
initial state. -/
theorem C1_extent_limit (z : ZbcZone)
    (hlo : z.start ≤ z.wp) (hhi : z.wp ≤ z.start + z.length)
    (hfit : z.wp < 2 ^ 64) :
    (z.sequential_req = true → z.full = false →
      zbc_sector_max z = z.wp - z.start) ∧
    (z.sequential_req = false ∨ z.full = true →
      zbc_sector_max z = z.length) ∧
    zbc_sector_max z ≤ z.length ∧
    (z.sequential_req = true → z.full = false → z.wp = z.start →
      zbc_sector_max z = 0 ∧
      ∀ (cfg : Config) (a : Nat → Bool) (r : Nat → Nat → Int) (w : Nat → Int)
        (s : LoopState), cfg.sector_max = zbc_sector_max z →
          readLoop cfg a r w s = s) := by
  refine ⟨?_, ?_, ?_, ?_⟩
  · intro hs hf
    unfold zbc_sector_max
    rw [if_pos (by simp [hs, hf])]
    omega
  · intro h
    rcases h with h | h <;> simp [zbc_sector_max, h]
  · unfold zbc_sector_max
    split
    · omega
    · exact le_refl _
  · intro hs hf hwp
    have hmax : zbc_sector_max z = 0 := by
      unfold zbc_sector_max
      rw [if_pos (by simp [hs, hf])]
      omega
    refine ⟨hmax, fun cfg a r w s hcfg => ?_⟩
    exact readLoop_exit cfg a r w s (by omega)

/-- C1, witnessed on the zone `⟨true, false, 100, 100, 1000⟩` (sequential
required, not full, write pointer at the zone start). -/
theorem C1_extent_limit_witness :
    ((100 : Nat) ≤ 100 ∧ (100 : Nat) ≤ 100 + 1000 ∧ (100 : Nat) < 2 ^ 64) ∧
    ((ZbcZone.sequential_req ⟨true, false, 100, 100, 1000⟩ = true →
        ZbcZone.full ⟨true, false, 100, 100, 1000⟩ = false →
        zbc_sector_max ⟨true, false, 100, 100, 1000⟩ = 100 - 100) ∧
      (ZbcZone.sequential_req ⟨true, false, 100, 100, 1000⟩ = false ∨
          ZbcZone.full ⟨true, false, 100, 100, 1000⟩ = true →
        zbc_sector_max ⟨true, false, 100, 100, 1000⟩ = 1000) ∧
      zbc_sector_max ⟨true, false, 100, 100, 1000⟩ ≤ 1000 ∧
      (ZbcZone.sequential_req ⟨true, false, 100, 100, 1000⟩ = true →
        ZbcZone.full ⟨true, false, 100, 100, 1000⟩ = false →
        (100 : Nat) = 100 →
        zbc_sector_max ⟨true, false, 100, 100, 1000⟩ = 0 ∧
        ∀ (cfg : Config) (a : Nat → Bool) (r : Nat → Nat → Int)
          (w : Nat → Int) (s : LoopState),
            cfg.sector_max = zbc_sector_max ⟨true, false, 100, 100, 1000⟩ →
            readLoop cfg a r w s = s)) :=
  ⟨⟨by norm_num, by norm_num, by norm_num⟩,
    C1_extent_limit ⟨true, false, 100, 100, 1000⟩ (by norm_num) (by norm_num)
      (by norm_num)⟩

/-- C2: on an iteration with `want_sectors` sectors wanted, if vectored
mode is on and `want_sectors` is at least twice the logical block size in
sectors, the dispatcher issues a two-segment vectored read: the first
segment has `want_sectors / 2` sectors at buffer byte offset 0, the second
has the remaining `want_sectors - want_sectors / 2` sectors and begins at
exactly the byte where the first ends (contiguous, disjoint, in order),
the two tiling the `want_sectors`-sector transfer; otherwise a single
contiguous read of `want_sectors` sectors at `zone_start + sector_ofst`
is issued. -/
theorem C2_dispatch_shape (cfg : Config) (sector_ofst : Nat) :
    (cfg.fvio = true →
      2 * (cfg.lblock_size >>> 9) ≤ want_sectors cfg sector_ofst →
      dispatch_read cfg sector_ofst =
        ReadShape.vectored (want_sectors cfg sector_ofst / 2)
          ((want_sectors cfg sector_ofst / 2) <<< 9)
          (want_sectors cfg sector_ofst - want_sectors cfg sector_ofst / 2)
          (cfg.zone_start + sector_ofst) ∧
      want_sectors cfg sector_ofst / 2 +
          (want_sectors cfg sector_ofst - want_sectors cfg sector_ofst / 2) =
        want_sectors cfg sector_ofst ∧
      (want_sectors cfg sector_ofst / 2) <<< 9 =
        0 + (want_sectors cfg sector_ofst / 2) * 512 ∧
      (want_sectors cfg sector_ofst / 2) <<< 9 +
          (want_sectors cfg sector_ofst -
            want_sectors cfg sector_ofst / 2) * 512 =
        want_sectors cfg sector_ofst * 512) ∧
    (cfg.fvio = false ∨
        want_sectors cfg sector_ofst < 2 * (cfg.lblock_size >>> 9) →
      dispatch_read cfg sector_ofst =
        ReadShape.contiguous (want_sectors cfg sector_ofst)
          (cfg.zone_start + sector_ofst)) := by
  have hshift : ∀ n : Nat, n <<< 9 = n * 512 := by
    intro n
    rw [Nat.shiftLeft_eq]
  constructor
  · intro hv hge
    refine ⟨?_, by omega, by rw [hshift]; omega, by rw [hshift]; omega⟩
    unfold dispatch_read
    rw [if_pos (by simp [hv, hge])]
  · intro h
    unfold dispatch_read
    rw [if_neg]
    rcases h with h | h <;> simp [h]

/-- C2, witnessed: with `iosize = 8192` B (16 sectors), a 4096-B logical
block (8 sectors), an untouched 1000-sector extent and vectored mode on,
the dispatcher splits 16 sectors into 8 + 8 with the second segment at
buffer byte offset 4096; with vectored mode off it issues one contiguous
16-sector read. -/
theorem C2_dispatch_shape_witness :
    (dispatch_read ⟨8192, 0, true, false, 4096, 50, 1000⟩ 0 =
        ReadShape.vectored 8 4096 8 50 ∧
      (8 : Nat) + 8 = 16 ∧ (4096 : Nat) = 0 + 4096 ∧
      (4096 : Nat) + 8 * 512 = 16 * 512) ∧
    dispatch_read ⟨8192, 0, false, false, 4096, 50, 1000⟩ 0 =
      ReadShape.contiguous 16 50 := by
  have h1 := (C2_dispatch_shape ⟨8192, 0, true, false, 4096, 50, 1000⟩ 0).1
    rfl (by decide)
  have h2 := (C2_dispatch_shape ⟨8192, 0, false, false, 4096, 50, 1000⟩ 0).2
    (Or.inl rfl)
  constructor
  · have hw : want_sectors ⟨8192, 0, true, false, 4096, 50, 1000⟩ 0 = 16 := by
      decide
    rw [hw] at h1
    refine ⟨h1.1, by decide, by decide, by decide⟩
  · have hw : want_sectors ⟨8192, 0, false, false, 4096, 50, 1000⟩ 0 = 16 := by
      decide
    rw [hw] at h2
    exact h2

/-- C9: the loop's sector/byte scaling hard-codes a 512-byte sector: the
per-iteration requested sector count is `iosize >> 9 = iosize / 512`, a
successful transfer of `t` sectors advances the byte counter by exactly
`t << 9 = 512 t` bytes, and neither quantity depends on the device's
reported logical block size (any configuration with the same `iosize`
requests the same sector count). -/
theorem C9_hardcoded_512 (cfg : Config) (s : LoopState) (t : Nat) :
    requested_sectors cfg = cfg.iosize / 512 ∧
    (apply_transfer s t).bcount = s.bcount + t * 512 ∧
    (∀ cfg' : Config, cfg'.iosize = cfg.iosize →
      requested_sectors cfg' = requested_sectors cfg) := by
  refine ⟨?_, ?_, ?_⟩
  · unfold requested_sectors
    rw [Nat.shiftRight_eq_div_pow]
  · unfold apply_transfer bytes_of_sectors
    rw [Nat.shiftLeft_eq]
  · intro cfg' hio
    unfold requested_sectors
    rw [hio]

/-- C9, witnessed: `iosize = 4096` B requests 8 sectors on a device with
512-B blocks and on a device with 4096-B blocks alike, and a 5-sector
transfer adds 2560 bytes to the byte counter. -/
theorem C9_hardcoded_512_witness :
    requested_sectors ⟨4096, 0, false, false, 512, 0, 100⟩ = 4096 / 512 ∧
    (apply_transfer ⟨0, 0, 0, 0⟩ 5).bcount = 0 + 5 * 512 ∧
    requested_sectors ⟨4096, 0, false, false, 4096, 7, 3⟩ =
      requested_sectors ⟨4096, 0, false, false, 512, 0, 100⟩ :=
  ⟨(C9_hardcoded_512 ⟨4096, 0, false, false, 512, 0, 100⟩ ⟨0, 0, 0, 0⟩ 5).1,
    (C9_hardcoded_512 ⟨4096, 0, false, false, 512, 0, 100⟩ ⟨0, 0, 0, 0⟩ 5).2.1,
    (C9_hardcoded_512 ⟨4096, 0, false, false, 512, 0, 100⟩ ⟨0, 0, 0, 0⟩
        5).2.2 ⟨4096, 0, false, false, 4096, 7, 3⟩ rfl⟩

/-- A read oracle that always transfers the full requested sector count
(`zbc_pread` returning its `count` argument). -/
def fullRead (_k : Nat) (req : Nat) : Int :=
  (req : Int)

/-- An abort-flag trace in which no signal ever arrives. -/
def noAbort (_k : Nat) : Bool :=
  false

/-- A write oracle whose `write` calls all succeed. -/
def noWrite (_k : Nat) : Int :=
  0

/-- Core invariant of the read loop, by strong induction on the remaining
extent: if the read primitive never returns more than the requested count,
then from a state whose cursor is within the extent and (when a budget is
set) whose I/O count is strictly below the budget, the loop only moves the
cursor forward, keeps it within the extent, and keeps the I/O count at or
below the budget. -/
theorem readLoop_bounds (cfg : Config) (a : Nat → Bool) (r : Nat → Nat → Int)
    (w : Nat → Int) (hr : ∀ k req, r k req ≤ (req : Int)) :
    ∀ (n : Nat) (s : LoopState), cfg.sector_max - s.sector_ofst = n →
      s.sector_ofst ≤ cfg.sector_max →
      (0 < cfg.ionum → s.iocount < cfg.ionum) →
      s.sector_ofst ≤ (readLoop cfg a r w s).sector_ofst ∧
      (readLoop cfg a r w s).sector_ofst ≤ cfg.sector_max ∧
      (0 < cfg.ionum → (readLoop cfg a r w s).iocount ≤ cfg.ionum) := by
  intro n
  induction n using Nat.strong_induction_on with
  | _ n ih =>
    intro s hn hofst hbud
    rw [readLoop.eq_def]
    split
    · rename_i hcond
      have hlt := hcond.2
      split
      · exact ⟨le_refl _, hofst, fun hi => le_of_lt (hbud hi)⟩
      · rename_i hret
        split
        · exact ⟨le_refl _, hofst, fun hi => le_of_lt (hbud hi)⟩
        · have hrk := hr s.iocount (want_sectors cfg s.sector_ofst)
          have hwant : want_sectors cfg s.sector_ofst ≤
              cfg.sector_max - s.sector_ofst := by
            simp only [want_sectors, requested_sectors]
            split <;> omega
          split
          · rename_i hbreak
            simp only [apply_transfer]
            exact ⟨Nat.le_add_right _ _, by omega,
              fun hi => by have := hbud hi; omega⟩
          · rename_i hgo
            simp only [apply_transfer] at hgo
            have hofst' : (apply_transfer s (r s.iocount
                (want_sectors cfg s.sector_ofst)).toNat).sector_ofst ≤
                cfg.sector_max := by
              simp only [apply_transfer]
              omega
            have hmeas : cfg.sector_max - (apply_transfer s (r s.iocount
                (want_sectors cfg s.sector_ofst)).toNat).sector_ofst < n := by
              simp only [apply_transfer]
              omega
            have hbud' : 0 < cfg.ionum → (apply_transfer s (r s.iocount
                (want_sectors cfg s.sector_ofst)).toNat).iocount <
                cfg.ionum := by
              intro hi
              simp only [apply_transfer]
              omega
            have hrec := ih _ hmeas (apply_transfer s (r s.iocount
              (want_sectors cfg s.sector_ofst)).toNat) rfl hofst' hbud'
            refine ⟨le_trans ?_ hrec.1, hrec.2.1, hrec.2.2⟩
            simp only [apply_transfer]
            exact Nat.le_add_right _ _
    · exact ⟨le_refl _, hofst, fun hi => le_of_lt (hbud hi)⟩

/-- C3: session invariant of the loop, assuming every read primitive call
returns at most the requested count: starting within the extent with the
budget (when set) not yet reached, `sector_ofst` is non-decreasing across
the run and never exceeds `sector_max`; when an I/O budget is set,
`iocount` never exceeds it; each request is clamped to
`min(requested_io_sectors, sector_max - sector_ofst)`; and each completed
I/O advances `sector_ofst` by exactly the transferred sector count. -/
theorem C3_session_invariant (cfg : Config) (a : Nat → Bool)
    (r : Nat → Nat → Int) (w : Nat → Int)
    (hr : ∀ k req, r k req ≤ (req : Int)) (s : LoopState)
    (hofst : s.sector_ofst ≤ cfg.sector_max)
    (hbud : 0 < cfg.ionum → s.iocount < cfg.ionum) :
    s.sector_ofst ≤ (readLoop cfg a r w s).sector_ofst ∧
    (readLoop cfg a r w s).sector_ofst ≤ cfg.sector_max ∧
    (0 < cfg.ionum → (readLoop cfg a r w s).iocount ≤ cfg.ionum) ∧
    (∀ ofst, want_sectors cfg ofst =
      min (requested_sectors cfg) (cfg.sector_max - ofst)) ∧
    (∀ (s0 : LoopState) (t : Nat),
      (apply_transfer s0 t).sector_ofst = s0.sector_ofst + t) := by
  obtain ⟨h1, h2, h3⟩ := readLoop_bounds cfg a r w hr
    (cfg.sector_max - s.sector_ofst) s rfl hofst hbud
  refine ⟨h1, h2, h3, fun ofst => ?_, fun s0 t => rfl⟩
  simp only [want_sectors, requested_sectors]
  split <;> omega

/-- C3, witnessed on a session with a 100-sector extent, 4096-B I/Os, a
budget of 3 I/Os and full transfers. -/
theorem C3_session_invariant_witness :
    (∀ k req : Nat, fullRead k req ≤ (req : Int)) ∧
    (0 : Nat) ≤ 100 ∧ (0 < (3 : Nat) → (0 : Nat) < 3) ∧
    ((0 : Nat) ≤ (readLoop ⟨4096, 3, false, false, 512, 0, 100⟩ noAbort
        fullRead noWrite ⟨0, 0, 0, 0⟩).sector_ofst ∧
      (readLoop ⟨4096, 3, false, false, 512, 0, 100⟩ noAbort fullRead
          noWrite ⟨0, 0, 0, 0⟩).sector_ofst ≤ 100 ∧
      (0 < (3 : Nat) → (readLoop ⟨4096, 3, false, false, 512, 0, 100⟩
          noAbort fullRead noWrite ⟨0, 0, 0, 0⟩).iocount ≤ 3) ∧
      (∀ ofst, want_sectors ⟨4096, 3, false, false, 512, 0, 100⟩ ofst =
        min (requested_sectors ⟨4096, 3, false, false, 512, 0, 100⟩)
          (100 - ofst)) ∧
      (∀ (s0 : LoopState) (t : Nat),
        (apply_transfer s0 t).sector_ofst = s0.sector_ofst + t)) :=
  ⟨fun _ req => le_refl (req : Int), by norm_num, fun h => h,
    C3_session_invariant ⟨4096, 3, false, false, 512, 0, 100⟩ noAbort
      fullRead noWrite (fun _ req => le_refl (req : Int)) ⟨0, 0, 0, 0⟩
      (by norm_num) (fun _ => by norm_num)⟩

/-- A read oracle for the error scenario: the first call transfers the
full request, every later call fails with -5 (`-EIO`). -/
def failSecond (k : Nat) (req : Nat) : Int :=
  if k = 0 then (req : Int) else -5

/-- C4: cancellation is cooperative and deferred: the signal handler only
ever sets the abort flag, never clears it; the flag is consulted at the
top of each iteration, and an iteration that observes it true starts no
new I/O and leaves every counter untouched; and in the scenario where the
flag becomes true after the first iteration's read is dispatched and
before the second iteration begins (abort observed false at poll 0, true
at poll 1), a session with a 100-sector extent and 4096-B I/Os ends after
exactly 1 completed I/O, retaining the partial counters (4096 bytes, 1
I/O) and a non-error status. -/
theorem C4_cooperative_abort (cfg : Config) (a : Nat → Bool)
    (r : Nat → Nat → Int) (w : Nat → Int) (s : LoopState)
    (hset : a s.iocount = true) :
    (∀ f : Bool, zbc_read_zone_sigcatcher f = true) ∧
    readLoop cfg a r w s = s ∧
    readLoop ⟨4096, 0, false, false, 512, 0, 100⟩ (fun k => decide (1 ≤ k))
        fullRead noWrite ⟨0, 0, 0, 0⟩ = ⟨8, 4096, 1, 0⟩ := by
  refine ⟨fun f => rfl, ?_, ?_⟩
  · rw [readLoop.eq_def, dif_neg (fun hc => absurd hc.1 (by simp [hset]))]
  · have step1 : readLoop ⟨4096, 0, false, false, 512, 0, 100⟩
        (fun k => decide (1 ≤ k)) fullRead noWrite ⟨0, 0, 0, 0⟩ =
        readLoop ⟨4096, 0, false, false, 512, 0, 100⟩
          (fun k => decide (1 ≤ k)) fullRead noWrite ⟨8, 4096, 1, 0⟩ := by
      rw [readLoop.eq_def]
      norm_num [want_sectors, requested_sectors, apply_transfer,
        bytes_of_sectors, fullRead, noWrite, Nat.shiftRight_eq_div_pow,
        Nat.shiftLeft_eq]
      rfl
    have step2 : readLoop ⟨4096, 0, false, false, 512, 0, 100⟩
        (fun k => decide (1 ≤ k)) fullRead noWrite ⟨8, 4096, 1, 0⟩ =
        ⟨8, 4096, 1, 0⟩ := by
      rw [readLoop.eq_def]
      norm_num
    rw [step1, step2]

/-- C4, witnessed: an iteration polling an already-set abort flag returns
its state unchanged, and the scenario run ends at ⟨8, 4096, 1, 0⟩. -/
theorem C4_cooperative_abort_witness :
    (fun _ : Nat => true) 0 = true ∧
    ((∀ f : Bool, zbc_read_zone_sigcatcher f = true) ∧
      readLoop ⟨4096, 0, false, false, 512, 0, 100⟩ (fun _ => true) fullRead
        noWrite ⟨0, 0, 0, 0⟩ = ⟨0, 0, 0, 0⟩ ∧
      readLoop ⟨4096, 0, false, false, 512, 0, 100⟩ (fun k => decide (1 ≤ k))
        fullRead noWrite ⟨0, 0, 0, 0⟩ = ⟨8, 4096, 1, 0⟩) :=
  ⟨rfl, C4_cooperative_abort ⟨4096, 0, false, false, 512, 0, 100⟩
    (fun _ => true) fullRead noWrite ⟨0, 0, 0, 0⟩ rfl⟩

/-- C5: a non-positive result from the read primitive is fatal and not
retried: the loop returns at once with `ret = 1` (a non-zero completion
status) and the byte and I/O counters exactly as they were before the
failing iteration; in the concrete scenario where the read primitive
returns -5 on iteration 2, the run ends at ⟨8, 4096, 1, 1⟩ — counters
reflecting only iteration 1 and a non-zero status. -/
theorem C5_read_failure_stops (cfg : Config) (a : Nat → Bool)
    (r : Nat → Nat → Int) (w : Nat → Int) (s : LoopState)
    (hab : a s.iocount = false) (hofst : s.sector_ofst < cfg.sector_max)
    (hfail : r s.iocount (want_sectors cfg s.sector_ofst) ≤ 0) :
    readLoop cfg a r w s = { s with ret := 1 } ∧
    (readLoop cfg a r w s).bcount = s.bcount ∧
    (readLoop cfg a r w s).iocount = s.iocount ∧
    (readLoop cfg a r w s).ret ≠ 0 ∧
    readLoop ⟨4096, 0, false, false, 512, 0, 100⟩ noAbort failSecond noWrite
      ⟨0, 0, 0, 0⟩ = ⟨8, 4096, 1, 1⟩ := by
  have hmain : readLoop cfg a r w s = { s with ret := 1 } := by
    rw [readLoop.eq_def, dif_pos ⟨hab, hofst⟩, dif_pos hfail]
  refine ⟨hmain, by rw [hmain], by rw [hmain], by rw [hmain]; exact one_ne_zero, ?_⟩
  have step1 : readLoop ⟨4096, 0, false, false, 512, 0, 100⟩ noAbort
      failSecond noWrite ⟨0, 0, 0, 0⟩ =
      readLoop ⟨4096, 0, false, false, 512, 0, 100⟩ noAbort failSecond
        noWrite ⟨8, 4096, 1, 0⟩ := by
    rw [readLoop.eq_def]
    norm_num [want_sectors, requested_sectors, apply_transfer,
      bytes_of_sectors, failSecond, noAbort, noWrite,
      Nat.shiftRight_eq_div_pow, Nat.shiftLeft_eq]
    rfl
  have step2 : readLoop ⟨4096, 0, false, false, 512, 0, 100⟩ noAbort
      failSecond noWrite ⟨8, 4096, 1, 0⟩ = ⟨8, 4096, 1, 1⟩ := by
    rw [readLoop.eq_def]
    norm_num [want_sectors, requested_sectors, failSecond, noAbort,
      Nat.shiftRight_eq_div_pow]
  rw [step1, step2]

/-- C5, witnessed at the state reached after iteration 1 of the error
scenario: the failing read at iteration index 1 ends the run with the
counters of iteration 1 and `ret = 1`. -/
theorem C5_read_failure_stops_witness :
    noAbort 1 = false ∧ (8 : Nat) < 100 ∧
    failSecond 1 (want_sectors ⟨4096, 0, false, false, 512, 0, 100⟩ 8) ≤ 0 ∧
    readLoop ⟨4096, 0, false, false, 512, 0, 100⟩ noAbort failSecond noWrite
      ⟨8, 4096, 1, 0⟩ = ⟨8, 4096, 1, 1⟩ :=
  ⟨rfl, by norm_num, by decide,
    (C5_read_failure_stops ⟨4096, 0, false, false, 512, 0, 100⟩ noAbort
      failSecond noWrite ⟨8, 4096, 1, 0⟩ rfl (by norm_num) (by decide)).1⟩

/-- Line 369: `iocount * 1000000 / elapsed`, computed on
`unsigned long long` (the product wraps modulo `2 ^ 64`). -/
def zbc_iops (iocount elapsed : Nat) : Nat :=
  iocount * 1000000 % 2 ^ 64 / elapsed

/-- Line 370: `brate = bcount * 1000000 / elapsed;` on
`unsigned long long`. -/
def zbc_brate (bcount elapsed : Nat) : Nat :=
  bcount * 1000000 % 2 ^ 64 / elapsed

/-- Line 372: the whole-megabyte part printed for the bandwidth,
`brate / 1000000`. -/
def zbc_bw_int (brate : Nat) : Nat :=
  brate / 1000000

/-- Line 373: the three-decimal fractional part printed for the bandwidth,
`(brate % 1000000) / 1000`. -/
def zbc_bw_frac (brate : Nat) : Nat :=
  brate % 1000000 / 1000

/-- What the end-of-run report prints: either totals plus elapsed time and
rates, or (zero elapsed time) the totals alone. -/
inductive Report where
  | with_rates (bcount iocount sec msec iops bw_int bw_frac : Nat)
  | totals_only (bcount iocount : Nat)
deriving DecidableEq, Repr

/-- Lines 361-378, the final report:

    if (elapsed) {
        printf("Read %llu B (%llu I/Os) in %llu.%03llu sec\n",
               bcount, iocount,
               elapsed / 1000000, (elapsed % 1000000) / 1000);
        printf("  IOPS %llu\n", iocount * 1000000 / elapsed);
        brate = bcount * 1000000 / elapsed;
        printf("  BW %llu.%03llu MB/s\n",
               brate / 1000000, (brate % 1000000) / 1000);
    } else {
        printf("Read %llu B (%llu I/Os)\n", bcount, iocount);
    }
-/
def zbc_report (elapsed bcount iocount : Nat) : Report :=
  if elapsed ≠ 0 then
    Report.with_rates bcount iocount (elapsed / 1000000)
      (elapsed % 1000000 / 1000) (zbc_iops iocount elapsed)
      (zbc_bw_int (zbc_brate bcount elapsed))
      (zbc_bw_frac (zbc_brate bcount elapsed))
  else
    Report.totals_only bcount iocount

/-- C6: for non-zero elapsed time (and counters whose microsecond products
fit `unsigned long long`, so the wrap is invisible), the reported I/O rate
is exactly `iocount * 1000000 / elapsed` (integer truncated), the byte
rate exactly `bcount * 1000000 / elapsed`, presented as `rate / 1000000`
whole megabytes plus `(rate % 1000000) / 1000` thousandths; and the whole
report is a deterministic pure function of (elapsed, bcount, iocount). -/
theorem C6_rate_computation (elapsed bcount iocount : Nat)
    (h0 : elapsed ≠ 0) (hb : bcount * 1000000 < 2 ^ 64)
    (hi : iocount * 1000000 < 2 ^ 64) :
    zbc_iops iocount elapsed = iocount * 1000000 / elapsed ∧
    zbc_brate bcount elapsed = bcount * 1000000 / elapsed ∧
    zbc_bw_int (zbc_brate bcount elapsed) =
      bcount * 1000000 / elapsed / 1000000 ∧
    zbc_bw_frac (zbc_brate bcount elapsed) =
      bcount * 1000000 / elapsed % 1000000 / 1000 ∧
    zbc_report elapsed bcount iocount = Report.with_rates bcount iocount
      (elapsed / 1000000) (elapsed % 1000000 / 1000)
      (iocount * 1000000 / elapsed)
      (bcount * 1000000 / elapsed / 1000000)
      (bcount * 1000000 / elapsed % 1000000 / 1000) ∧
    (∀ e b i : Nat, e = elapsed → b = bcount → i = iocount →
      zbc_report e b i = zbc_report elapsed bcount iocount) := by
  have h1 : zbc_iops iocount elapsed = iocount * 1000000 / elapsed := by
    unfold zbc_iops
    rw [Nat.mod_eq_of_lt hi]
  have h2 : zbc_brate bcount elapsed = bcount * 1000000 / elapsed := by
    unfold zbc_brate
    rw [Nat.mod_eq_of_lt hb]
  refine ⟨h1, h2, ?_, ?_, ?_, ?_⟩
  · unfold zbc_bw_int
    rw [h2]
  · unfold zbc_bw_frac
    rw [h2]
  · unfold zbc_report
    rw [if_pos h0, h1, h2]
    unfold zbc_bw_int zbc_bw_frac
    rfl
  · intro e b i he hb hi
    rw [he, hb, hi]

/-- C6, witnessed at elapsed = 2 us, 1024 bytes, 3 I/Os. -/
theorem C6_rate_computation_witness :
    (2 : Nat) ≠ 0 ∧ (1024 : Nat) * 1000000 < 2 ^ 64 ∧
    (3 : Nat) * 1000000 < 2 ^ 64 ∧
    (zbc_iops 3 2 = 3 * 1000000 / 2 ∧
      zbc_brate 1024 2 = 1024 * 1000000 / 2 ∧
      zbc_bw_int (zbc_brate 1024 2) = 1024 * 1000000 / 2 / 1000000 ∧
      zbc_bw_frac (zbc_brate 1024 2) = 1024 * 1000000 / 2 % 1000000 / 1000 ∧
      zbc_report 2 1024 3 = Report.with_rates 1024 3 (2 / 1000000)
        (2 % 1000000 / 1000) (3 * 1000000 / 2) (1024 * 1000000 / 2 / 1000000)
        (1024 * 1000000 / 2 % 1000000 / 1000) ∧
      (∀ e b i : Nat, e = 2 → b = 1024 → i = 3 →
        zbc_report e b i = zbc_report 2 1024 3)) :=
  ⟨by norm_num, by norm_num, by norm_num,
    C6_rate_computation 2 1024 3 (by norm_num) (by norm_num) (by norm_num)⟩

/-- C7: a run whose measured elapsed time is zero microseconds reports
only the byte and I/O totals — the `else` branch carries no rate fields,
so no division by `elapsed = 0` is performed. -/
theorem C7_zero_elapsed_guard (elapsed bcount iocount : Nat)
    (h : elapsed = 0) :
    zbc_report elapsed bcount iocount = Report.totals_only bcount iocount := by
  subst h
  simp [zbc_report]

/-- C7, witnessed on a zero-iteration run (elapsed 0, 0 bytes, 0 I/Os). -/
theorem C7_zero_elapsed_guard_witness :
    (0 : Nat) = 0 ∧ zbc_report 0 0 0 = Report.totals_only 0 0 :=
  ⟨rfl, C7_zero_elapsed_guard 0 0 0 rfl⟩

/-- The three output targets the `-f` handling distinguishes (lines
259-299): no `-f` option, `-f -` (the pre-existing standard output
stream), or `-f <name>` (a file newly created with `O_CREAT|O_TRUNC`). -/
inductive OutputTarget where
  | noFile
  | stdoutStream
  | newFile
deriving DecidableEq, Repr

/-- The value `fd` holds when the `out:` label is reached: -1 (its
initialiser, line 68) when no `-f` was given, `fileno(stdout) = 1` for
`-f -` (line 264), and the `open(2)` result for `-f <name>` (line 271). -/
def output_fd (tgt : OutputTarget) (openRes : Int) : Int :=
  match tgt with
  | .noFile => -1
  | .stdoutStream => 1
  | .newFile => openRes

/-- Lines 380-387, the cleanup at the `out:` label — whether
`unlink(file)` runs:

    if ( file && (fd > 0) ) {
        if (fd != fileno(stdout))
            close(fd);
        if (ret != 0)
            unlink(file);
    }

The `fd != fileno(stdout)` test guards only `close`, not `unlink`. -/
def unlink_on_exit (tgt : OutputTarget) (fd : Int) (ret : Int) : Bool :=
  decide (tgt ≠ OutputTarget.noFile) && decide (0 < fd) && decide (ret ≠ 0)

/-- C8: the cleanup decision evaluated on each exit class. A failed
session (`ret = 1`) writing to a newly created file does remove it, and a
zero-status session removes nothing, as the claim states; but a failed
session writing to the pre-existing standard-output stream (`-f -`, so
`fd = fileno(stdout) = 1 > 0`) also executes `unlink("-")` — the
`fd != fileno(stdout)` test guards only `close` — removing a
working-directory entry named `-` that the program never created. The
final conjunct exhibits this divergence from the claim. -/
theorem C8_unlink_decision :
    unlink_on_exit OutputTarget.newFile (output_fd OutputTarget.newFile 3) 1 =
      true ∧
    unlink_on_exit OutputTarget.newFile (output_fd OutputTarget.newFile 3) 0 =
      false ∧
    unlink_on_exit OutputTarget.stdoutStream
      (output_fd OutputTarget.stdoutStream (-1)) 0 = false ∧
    unlink_on_exit OutputTarget.noFile (output_fd OutputTarget.noFile (-1)) 1 =
      false ∧
    unlink_on_exit OutputTarget.stdoutStream
      (output_fd OutputTarget.stdoutStream (-1)) 1 = true := by
  decide

/-- Lines 124-128, the `-nio` option handling:

    ionum = atoi(argv[i]);
    if (ionum <= 0) {
        fprintf(stderr, "Invalid number of I/Os\n");
        return 1;
    }

`ionum` is `unsigned long long`: storing `atoi`'s `int` result converts it
modulo `2 ^ 64`, and `ionum <= 0` is an unsigned comparison, true only for
0. `none` models the `return 1` rejection; `some v` the session
proceeding with I/O cap `v`. -/
def zbc_parse_nio (n : Int) : Option Nat :=
  let ionum : Nat := (n % 2 ^ 64).toNat
  if ionum ≤ 0 then none else some ionum

/-- C10: a negative `-nio` argument `n` (any value `atoi` can produce) is
not rejected: the stored unsigned cap becomes `2 ^ 64 + n`, which is at
least `2 ^ 63` — an effectively unlimited I/O budget — and the `<= 0`
guard rejects exactly the argument 0 on the `int` range. -/
theorem C10_negative_nio (n : Int) (hlo : -(2 ^ 31) ≤ n) (hneg : n < 0) :
    zbc_parse_nio n = some (2 ^ 64 + n).toNat ∧
    2 ^ 63 ≤ (2 ^ 64 + n).toNat ∧
    (∀ m : Int, -(2 ^ 31) ≤ m → m < 2 ^ 31 →
      (zbc_parse_nio m = none ↔ m = 0)) := by
  have hmod : n % 2 ^ 64 = 2 ^ 64 + n := by omega
  refine ⟨?_, by omega, ?_⟩
  · simp only [zbc_parse_nio, hmod]
    rw [if_neg (by omega)]
  · intro m h1 h2
    rcases eq_or_ne m 0 with rfl | hm
    · simp [zbc_parse_nio]
    · simp only [zbc_parse_nio]
      rw [if_neg (by omega)]
      simp [hm]

/-- C10, witnessed at `-nio -5`: the cap becomes `2 ^ 64 - 5`. -/
theorem C10_negative_nio_witness :
    -(2 ^ 31) ≤ (-5 : Int) ∧ (-5 : Int) < 0 ∧
    (zbc_parse_nio (-5) = some (2 ^ 64 + (-5 : Int)).toNat ∧
      2 ^ 63 ≤ ((2 : Int) ^ 64 + (-5 : Int)).toNat ∧
      (∀ m : Int, -(2 ^ 31) ≤ m → m < 2 ^ 31 →
        (zbc_parse_nio m = none ↔ m = 0))) :=
  ⟨by norm_num, by norm_num, C10_negative_nio (-5) (by norm_num) (by norm_num)⟩
